import Mathlib

set_option maxRecDepth 16000

/-!
Verification of the skill validator (`scripts/validate-skill.py`).

The Python program is shallowly embedded: document texts are `String`
(lists of unicode scalar characters, as read with UTF-8), the mutable
`self.errors` / `self.warnings` accumulators become an explicit `VState`
threaded through the checkers, the filesystem snapshot seen by one run
becomes the record `SkillFS`, and Python exceptions (`TypeError`,
`AttributeError`) escaping a dynamically typed operation become the
`Except PyExc` monad.  The external YAML decoder (`yaml.safe_load`) is a
parameter `decode : String → Except String Yaml` of the run; theorems that
depend on its behaviour take that behaviour as an explicit hypothesis, and
a small concrete model `safeLoadModel` instantiates it on the fragment of
YAML the fixtures use.
-/

/-! ### Python string primitives -/

/-- Index of the first occurrence of `sep` in `l` (leftmost position at
which `sep` is a prefix of the remainder), as used by `str.split`,
`str.find` and the `in` operator on Python strings. -/
def firstIdx (sep : List Char) : List Char → Option Nat
  | [] => if sep.isPrefixOf ([] : List Char) then some 0 else none
  | c :: t =>
    if sep.isPrefixOf (c :: t) then some 0
    else (firstIdx sep t).map (· + 1)

/-- Substring containment, `sep in l` on Python strings. -/
def containsSeq (sep l : List Char) : Bool := (firstIdx sep l).isSome

/-- Python `s.split(sep, maxsplit)` on character lists: repeatedly cut at
the leftmost occurrence of `sep`, at most `maxsplit` times. -/
def pySplitCh (sep : List Char) : Nat → List Char → List (List Char)
  | 0, s => [s]
  | k + 1, s =>
    match firstIdx sep s with
    | none => [s]
    | some i => s.take i :: pySplitCh sep k (s.drop (i + sep.length))

/-- Python `s.split(sep, maxsplit)` on strings. -/
def pySplit (s sep : String) (maxsplit : Nat) : List String :=
  (pySplitCh sep.toList maxsplit s.toList).map String.mk

/-- Python `s.split(sep)` for a single-character separator with no limit,
used for `content.split('\n')`. -/
def splitOnCh (sep : Char) : List Char → List (List Char)
  | [] => [[]]
  | c :: t =>
    if c = sep then [] :: splitOnCh sep t
    else
      match splitOnCh sep t with
      | [] => [[c]]
      | h :: r => (c :: h) :: r

/-- `content.split('\n')`. -/
def pySplitNl (l : List Char) : List (List Char) := splitOnCh '\n' l

/-- Python `str.startswith` for a single string argument. -/
def pyStartsWith (s pre : String) : Bool := pre.toList.isPrefixOf s.toList

/-- Python `str.lower()`.  Only the ASCII fragment is modelled
(`Char.toLower` lowercases `A`-`Z`); every string the validator compares
against is ASCII. -/
def lowerString (s : String) : String := String.mk (s.toList.map Char.toLower)

/-! ### The folder / name pattern `^[a-z0-9]+(-[a-z0-9]+)*$` -/

/-- Membership in the character class `[a-z0-9]`. -/
def isNameChar (c : Char) : Bool := ('a' ≤ c && c ≤ 'z') || ('0' ≤ c && c ≤ '9')

/-- The language of the regular expression `^[a-z0-9]+(-[a-z0-9]+)*$` with
both anchors read as begin/end of string: one or more nonempty `[a-z0-9]`
segments joined by single hyphens.  Splitting on `-` makes this exact: the
whole string matches iff every `-`-separated segment is a nonempty run of
`[a-z0-9]`. -/
def nameLang (l : List Char) : Bool :=
  (splitOnCh '-' l).all (fun seg => !seg.isEmpty && seg.all isNameChar)

/-- `NAME_PATTERN.match(s)` being truthy, with Python semantics of `$`:
in the `re` module (without `MULTILINE`), `$` matches at the end of the
string and also just before a newline at the end of the string, so the
pattern additionally accepts a matching name followed by one final `'\n'`. -/
def pyNameMatch (s : String) : Bool :=
  nameLang s.toList ||
    (s.toList.getLast? == some '\n' && nameLang s.toList.dropLast)

/-! ### Python values decoded from YAML -/

/-- Values produced by `yaml.safe_load`: `None`, booleans, integers,
strings, lists and dicts.  Mapping keys are modelled as strings (the only
kind the validator's fixed key set can recognise); non-string keys and
hashability are outside the model. -/
inductive Yaml where
  | null : Yaml
  | bool (b : Bool) : Yaml
  | int (n : Int) : Yaml
  | str (s : String) : Yaml
  | list (xs : List Yaml) : Yaml
  | map (kvs : List (String × Yaml)) : Yaml

/-- `v is None`. -/
def Yaml.isNull : Yaml → Bool
  | .null => true
  | _ => false

/-- Python equality of a decoded value with a string: only another string
with the same characters compares equal. -/
def yamlEqStr : Yaml → String → Bool
  | .str s, t => s == t
  | _, _ => false

/-- Python truthiness of a decoded value (`if value:`). -/
def Yaml.truthy : Yaml → Bool
  | .null => false
  | .bool b => b
  | .int n => n ≠ 0
  | .str s => s ≠ ""
  | .list xs => !xs.isEmpty
  | .map kvs => !kvs.isEmpty

/-- `isinstance(v, str)`. -/
def Yaml.isStr : Yaml → Bool
  | .str _ => true
  | _ => false

/-- `isinstance(v, bool)`. -/
def Yaml.isBool : Yaml → Bool
  | .bool _ => true
  | _ => false

/-- Python's name for the value's type, as it appears in exception
messages. -/
def typeName : Yaml → String
  | .null => "NoneType"
  | .bool _ => "bool"
  | .int _ => "int"
  | .str _ => "str"
  | .list _ => "list"
  | .map _ => "dict"

/-- `str(v)` as interpolated into f-string messages.  Scalars are exact;
container interpolation is abbreviated (no theorem evaluates a message
holding a container). -/
def pyStr : Yaml → String
  | .null => "None"
  | .bool true => "True"
  | .bool false => "False"
  | .int n => toString n
  | .str s => s
  | .list _ => "<list>"
  | .map _ => "<dict>"

/-- Exceptions the dynamically typed field checks can raise. -/
inductive PyExc where
  | typeError (msg : String) : PyExc
  | attributeError (msg : String) : PyExc
deriving DecidableEq

/-- Lookup in a decoded mapping; `None` when the key is absent.  Model
mappings carry each key once (as Python dicts do). -/
def dictGet (kvs : List (String × Yaml)) (k : String) : Yaml :=
  match kvs.find? (fun kv => kv.1 == k) with
  | some kv => kv.2
  | none => Yaml.null

/-- `for key in frontmatter`: iterating a dict yields its keys in order,
a string yields its one-character substrings, a list its elements; other
values are not iterable and raise `TypeError`. -/
def pyIter : Yaml → Except PyExc (List Yaml)
  | .map kvs => .ok (kvs.map (fun kv => Yaml.str kv.1))
  | .str s => .ok (s.toList.map (fun c => Yaml.str (String.mk [c])))
  | .list xs => .ok xs
  | v => .error (.typeError ("'" ++ typeName v ++ "' object is not iterable"))

/-- `frontmatter.get(k)`: only dicts have `.get`; on any other value the
attribute access raises `AttributeError`. -/
def pyGet : Yaml → String → Except PyExc Yaml
  | .map kvs, k => .ok (dictGet kvs k)
  | v, _ => .error (.attributeError ("'" ++ typeName v ++ "' object has no attribute 'get'"))

/-- `len(v)`: defined on strings, lists and dicts; raises `TypeError`
otherwise.  String length counts unicode scalars, as Python does. -/
def pyLen : Yaml → Except PyExc Nat
  | .str s => .ok s.length
  | .list xs => .ok xs.length
  | .map kvs => .ok kvs.length
  | v => .error (.typeError ("object of type '" ++ typeName v ++ "' has no len()"))

/-- `v.lower()`: a string method; any other value raises
`AttributeError`. -/
def pyLower : Yaml → Except PyExc String
  | .str s => .ok (lowerString s)
  | v => .error (.attributeError ("'" ++ typeName v ++ "' object has no attribute 'lower'"))

/-- `NAME_PATTERN.match(v)` being truthy: `re.match` demands a string
argument and raises `TypeError` otherwise. -/
def reMatchName : Yaml → Except PyExc Bool
  | .str s => .ok (pyNameMatch s)
  | _ => .error (.typeError "expected string or bytes-like object")

/-! ### The validation run state -/

/-- The two accumulators owned by one validation run (`self.errors`,
`self.warnings`), append-only in detection order. -/
structure VState where
  errors : List String
  warnings : List String
deriving DecidableEq

/-- `self.errors.append(msg)`. -/
def addErr (st : VState) (msg : String) : VState :=
  { st with errors := st.errors ++ [msg] }

/-- `self.warnings.append(msg)`. -/
def addWarn (st : VState) (msg : String) : VState :=
  { st with warnings := st.warnings ++ [msg] }

/-! ### The validator -/

/-- `VALID_FRONTMATTER_KEYS` (membership is all that is used of the set). -/
def validKeys : List String :=
  ["name", "description", "allowed-tools", "disable-model-invocation",
   "user-invocable", "context", "agent", "hooks", "model", "argument-hint",
   "license", "metadata", "compatibility"]

/-- `key not in VALID_FRONTMATTER_KEYS`, negated: a non-string key is
never a member of the set of strings. -/
def keyInValidSet : Yaml → Bool
  | .str s => validKeys.contains s
  | _ => false

/-- Lines 132-135: warn about every unknown frontmatter key. -/
def checkUnknownKeys (fm : Yaml) (st : VState) : Except PyExc VState := do
  let keys ← pyIter fm
  pure (keys.foldl
    (fun s k =>
      if keyInValidSet k then s
      else addWarn s ("Unknown frontmatter key: '" ++ pyStr k ++ "'")) st)

/-- Lines 137-157: validate the `name` field. -/
def checkName (folderName : String) (fm : Yaml) (st : VState) : Except PyExc VState := do
  let name ← pyGet fm "name"
  if name.truthy then do
    let n ← pyLen name
    let st := if n > 64
      then addErr st ("Name '" ++ pyStr name ++ "' exceeds max length (64 chars)")
      else st
    let ok ← reMatchName name
    let st := if !ok
      then addErr st ("Name '" ++ pyStr name ++ "' invalid. Use lowercase, numbers, hyphens only.")
      else st
    pure (if !(yamlEqStr name folderName)
      then addWarn st ("Name '" ++ pyStr name ++ "' doesn't match folder '" ++ folderName ++ "'")
      else st)
  else
    pure (addWarn st "No 'name' field in frontmatter (will use folder name)")

/-- Lines 159-179: validate the `description` field. -/
def checkDescription (fm : Yaml) (st : VState) : Except PyExc VState := do
  let description ← pyGet fm "description"
  if description.truthy then do
    let n ← pyLen description
    let st := if n > 1024
      then addErr st "Description exceeds max length (1024 chars)"
      else st
    let low ← pyLower description
    let st := if !(containsSeq "use when".toList low.toList)
      then addWarn st "Description should include 'Use when...' trigger conditions"
      else st
    let low2 ← pyLower description
    pure (if pyStartsWith low2 "i " || pyStartsWith low2 "i'" || pyStartsWith low2 "we "
      then addWarn st "Description should be in third person (avoid 'I' or 'We')"
      else st)
  else
    pure (addErr st "Missing required 'description' field")

/-- One step of the loop on lines 181-185. -/
def boolFieldCheck (fm : Yaml) (field : String) (st : VState) : Except PyExc VState := do
  let value ← pyGet fm field
  pure (if !value.isNull && !value.isBool
    then addErr st ("'" ++ field ++ "' must be a boolean (true/false)")
    else st)

/-- Lines 181-185: the loop over the two boolean-typed fields, unrolled
over its literal two-element list. -/
def checkBoolFields (fm : Yaml) (st : VState) : Except PyExc VState := do
  let st ← boolFieldCheck fm "disable-model-invocation" st
  boolFieldCheck fm "user-invocable" st

/-- `_validate_frontmatter` (lines 127-185).  The `frontmatter is None`
guard on line 129 is kept although the caller never passes `None`. -/
def validateFrontmatter (folderName : String) (fm : Yaml) (st : VState) :
    Except PyExc VState :=
  if fm.isNull then .ok st
  else do
    let st ← checkUnknownKeys fm st
    let st ← checkName folderName fm st
    let st ← checkDescription fm st
    checkBoolFields fm st

/-- `_parse_frontmatter` (lines 112-125).  The Python function returns
`None` (here `none`) when the text does not start with `---`, when
splitting on `---` yields fewer than three parts, when the decoder raises
(after appending the wrapped decode error), and also when the decoder
itself returns `None` — which the caller's `is None` test cannot tell from
failure. -/
def parseFrontmatter (decode : String → Except String Yaml) (content : String)
    (st : VState) : Option Yaml × VState :=
  if !(pyStartsWith content "---") then (none, st)
  else if (pySplit content "---" 2).length < 3 then (none, st)
  else
    match decode ((pySplit content "---" 2).getD 1 "") with
    | .ok Yaml.null => (none, st)
    | .ok v => (some v, st)
    | .error e => (none, addErr st ("YAML parsing error: " ++ e))

/-- Lines 97-101: the line-count advisory.  `content.split('\n')` is the
raw text split on newline characters. -/
def lineCountCheck (content : String) (st : VState) : VState :=
  if (pySplitNl content.toList).length > 500
  then addWarn st
    ("SKILL.md has " ++ toString (pySplitNl content.toList).length ++
      " lines (recommended max: 500)")
  else st

/-! ### The content checker

`_validate_content` (lines 187-204).  The deep-reference scan embeds
`re.search` of the pattern on line 202: a literal `[`, a lazy `.*?` label
(`.` does not match a newline), a literal `](`, then two or more `../`
segments immediately after the opening parenthesis, then a lazy `.*?` and
a literal `)`.  Since the engine backtracks, a match exists iff the text
decomposes as `p ++ "[" ++ A ++ "](" ++ "../../" ++ B ++ ")" ++ q` with
`A` and `B` newline-free (extra `../` segments and brackets are absorbed
by `A` and `B`).  The scanners below decide exactly that. -/

/-- The six characters `../../` — the least body of `(?:\.\.\/){2,}`. -/
def dotsSeg : List Char := ['.', '.', '/', '.', '.', '/']

/-- Whether a closing `)` is reachable without crossing a newline
(the lazy `.*?\)` tail of the pattern). -/
def closeBeforeNl : List Char → Bool
  | [] => false
  | c :: t =>
    if c = ')' then true
    else if c = '\n' then false
    else closeBeforeNl t

/-- Whether the text right after the label's `]` matches
`\((?:\.\.\/){2,}.*?\)`: it must start with `(` followed by `../../`
(the two obligatory traversal segments — further repetitions and the rest
of the target are consumed by the lazy tail), and a `)` must follow with
no intervening newline. -/
def checkTail (l : List Char) : Bool :=
  ('(' :: dotsSeg).isPrefixOf l && closeBeforeNl (l.drop 7)

/-- Whether some split of the text after a `[` into a newline-free label,
a `]`, and a matching tail exists. -/
def scanLabel : List Char → Bool
  | [] => false
  | c :: t =>
    if c = '\n' then false
    else if c = ']' then checkTail t || scanLabel t
    else scanLabel t

/-- `re.search` of the deep-reference pattern: try every position for the
opening `[`. -/
def refSearch : List Char → Bool
  | [] => false
  | c :: t =>
    if c = '[' then scanLabel t || refSearch t
    else refSearch t

/-- `_validate_content` (lines 187-204): warn for each missing recommended
section, then at most one warning for deep relative references. -/
def validateContent (content : String) (st : VState) : VState :=
  let contentLower := lowerString content
  let st := if !(containsSeq "when to use".toList contentLower.toList)
    then addWarn st "Missing recommended section: 'When to Use'" else st
  let st := if !(containsSeq "quick start".toList contentLower.toList)
    then addWarn st "Missing recommended section: 'Quick Start'" else st
  let st := if !(containsSeq "example".toList contentLower.toList)
    then addWarn st "Missing recommended section: 'Examples'" else st
  if refSearch content.toList
  then addWarn st "Deeply nested file references detected (avoid ../..)"
  else st

/-! ### Filesystem snapshot and orchestration -/

/-- The filesystem facts one validation run reads: whether the target
path exists and is a directory, the directory's base name
(`skill_path.name`), whether `SKILL.md` exists inside it, and that file's
text.  `path` is the string form of the target path as printed in
messages. -/
structure SkillFS where
  path : String
  folderName : String
  pathExists : Bool
  isDir : Bool
  skillMdExists : Bool
  skillMdContent : String
deriving DecidableEq

/-- `_validate_folder_structure` (lines 63-86): existence, directory,
`SKILL.md` presence (each aborting the remaining structure checks), then
the non-fatal folder-name format check. -/
def validateFolderStructure (fs : SkillFS) (st : VState) : VState :=
  if !fs.pathExists then addErr st ("Skill folder does not exist: " ++ fs.path)
  else if !fs.isDir then addErr st ("Path is not a directory: " ++ fs.path)
  else if !fs.skillMdExists then addErr st ("SKILL.md not found in " ++ fs.path)
  else if !(pyNameMatch fs.folderName)
  then addErr st ("Folder name '" ++ fs.folderName ++ "' invalid. " ++
      "Use lowercase letters, numbers, and hyphens only.")
  else st

/-- `_validate_skill_md` (lines 88-110): return silently when `SKILL.md`
is absent; otherwise read it, run the line-count advisory, parse the
frontmatter — recording the generic error and stopping on a `None`
result — and finally run the frontmatter and content checks. -/
def validateSkillMd (decode : String → Except String Yaml) (fs : SkillFS)
    (st : VState) : Except PyExc VState :=
  if !fs.skillMdExists then .ok st
  else
    match parseFrontmatter decode fs.skillMdContent
        (lineCountCheck fs.skillMdContent st) with
    | (none, st2) => .ok (addErr st2 "Invalid or missing YAML frontmatter")
    | (some fm, st2) => do
      let st3 ← validateFrontmatter fs.folderName fm st2
      .ok (validateContent fs.skillMdContent st3)

/-- `validate` (lines 51-61): run both checkers over fresh accumulators
and return `(is_valid, errors, warnings)`; an exception raised by a field
check propagates out of the run. -/
def validate (decode : String → Except String Yaml) (fs : SkillFS) :
    Except PyExc (Bool × List String × List String) :=
  match validateSkillMd decode fs (validateFolderStructure fs ⟨[], []⟩) with
  | .ok st => .ok (st.errors.isEmpty, st.errors, st.warnings)
  | .error e => .error e

/-! ### A concrete model of the external YAML decoder -/

/-- Python whitespace characters relevant to YAML scalars. -/
def isSpaceCh (c : Char) : Bool := c = ' ' || c = '\t' || c = '\n' || c = '\r'

/-- Strip surrounding whitespace from a character list. -/
def stripCh (l : List Char) : List Char :=
  ((l.dropWhile isSpaceCh).reverse.dropWhile isSpaceCh).reverse

/-- Digits-only parse of a plain scalar. -/
def digitsToNat (l : List Char) : Nat :=
  l.foldl (fun n c => n * 10 + (c.toNat - '0'.toNat)) 0

/-- Modelled from the spec: a plain YAML scalar of the fragment §6
describes — values "may be strings, booleans (`true`/`false` literal
tokens)" or numbers; an empty value is null; an unterminated flow
collection opener is a decode error, as the PyYAML parser reports. -/
def parseScalar (l : List Char) : Except String Yaml :=
  let t := stripCh l
  if t.isEmpty then .ok Yaml.null
  else if t = "true".toList then .ok (Yaml.bool true)
  else if t = "false".toList then .ok (Yaml.bool false)
  else if t.all (fun c => '0' ≤ c && c ≤ '9') then .ok (Yaml.int (digitsToNat t))
  else if t.head? = some '[' || t.head? = some '{' then
    .error "expected the node content, but found '<stream end>'"
  else .ok (Yaml.str (String.mk t))

/-- Modelled from the spec: one `key: value` line of the "standard
indented key-value block syntax with `:`-separated pairs" (§6). -/
def parseLine (l : List Char) : Except String (String × Yaml) :=
  match firstIdx [':'] l with
  | none => .error "could not find expected ':'"
  | some i => do
    let v ← parseScalar (l.drop (i + 1))
    .ok (String.mk (stripCh (l.take i)), v)

/-- Insert a pair into an association list the way assignment updates a
Python dict: an existing key keeps its position and takes the new value. -/
def updateAssoc (kvs : List (String × Yaml)) (k : String) (v : Yaml) :
    List (String × Yaml) :=
  if kvs.any (fun kv => kv.1 == k)
  then kvs.map (fun kv => if kv.1 == k then (k, v) else kv)
  else kvs ++ [(k, v)]

/-- Modelled from the spec: the external decoder `yaml.safe_load`, which
the script calls but does not define, on the fragment of YAML §6
describes — a flat block of `key: value` pairs with scalar values.  A
stream holding only whitespace contains no document and decodes to null
(PyYAML returns `None`); a single non-blank line without a `:` is a plain
scalar document; several lines where some line lacks a `:` are a decode
error, as is an unterminated flow collection. -/
def safeLoadModel (s : String) : Except String Yaml :=
  let nonBlank := (pySplitNl s.toList).filter (fun l => !l.all isSpaceCh)
  if nonBlank.isEmpty then .ok Yaml.null
  else if nonBlank.all (fun l => (firstIdx [':'] l).isSome) then do
    let pairs ← nonBlank.mapM parseLine
    .ok (Yaml.map (pairs.foldl (fun acc kv => updateAssoc acc kv.1 kv.2) []))
  else
    match nonBlank with
    | [l] => parseScalar l
    | _ => .error "could not find expected ':'"

/-! ### Spec-side predicates

Definitions in this section follow the words of the specification and of
the claims, to be compared against the behaviour of the embedded code. -/

/-- A newline-free character list (what one `.*?` of the pattern can
match). -/
def noNl (l : List Char) : Bool := l.all (fun c => c ≠ '\n')

/-- The decompositions the deep-reference regular expression can match
(see `refSearch`): a bracketed newline-free label, `](`, two `../`
segments immediately after the parenthesis, then newline-free text up to
a `)`. -/
def RefMatchShape (l : List Char) : Prop :=
  ∃ p A B q, l = p ++ '[' :: (A ++ ']' :: '(' :: (dotsSeg ++ B ++ ')' :: q)) ∧
    noNl A = true ∧ noNl B = true

/-- The deep-reference condition as claim C3 words it: a bracketed label
immediately followed by a parenthesized target that contains `../`
repeated twice consecutively anywhere inside the target. -/
def ClaimDeepLink (l : List Char) : Prop :=
  ∃ p A T q, l = p ++ '[' :: (A ++ ']' :: '(' :: (T ++ ')' :: q)) ∧
    containsSeq dotsSeg T = true

/-- A field value the dynamically typed checks can consume without a type
fault: either falsy (skipping the checks) or an honest string. -/
def strOrFalsy (v : Yaml) : Bool := !v.truthy || v.isStr

/-- A decoded frontmatter value on which `_validate_frontmatter` raises no
exception: null, or a mapping whose `name` and `description` values are
strings whenever truthy.  Every other value — a truthy non-mapping, or a
mapping with a truthy non-string `name` or `description` — makes some
dynamically typed operation raise. -/
def benignFm : Yaml → Bool
  | .map kvs => strOrFalsy (dictGet kvs "name") && strOrFalsy (dictGet kvs "description")
  | v => v.isNull

/-! ### Concrete fixtures -/

/-- A fully conventional skill: folder `my-skill` holding a `SKILL.md`
whose frontmatter and body satisfy every check. -/
def fsGood : SkillFS :=
  { path := "skills/my-skill"
    folderName := "my-skill"
    pathExists := true
    isDir := true
    skillMdExists := true
    skillMdContent := "---\nname: my-skill\ndescription: Does X. Use when Y.\n---\n# my-skill\n\nWhen to Use\nQuick Start\nExamples\n" }

/-- A skill whose document has a blank metadata block between the two
delimiters. -/
def fsBlankBlock : SkillFS :=
  { fsGood with skillMdContent := "---\n---\nbody" }

/-- A skill whose metadata block is `[`, which the YAML decoder rejects. -/
def fsYamlErr : SkillFS :=
  { fsGood with skillMdContent := "---\n[\n---\nbody" }

/-- A skill whose metadata block decodes to the integer `5` rather than
a mapping. -/
def fsIntBlock : SkillFS :=
  { fsGood with skillMdContent := "---\n5\n---\nbody" }

/-- A skill folder whose base name is `my-skill` followed by a newline —
a legal directory name that the anchored regular expression's language
does not contain. -/
def fsNlName : SkillFS :=
  { fsGood with
    path := "skills/my-skill\n"
    folderName := "my-skill\n"
    skillMdContent := "body" }

/-- A skill whose metadata block decodes to a mapping carrying the
integer `5` as `name` and no `description`. -/
def fsName5 : SkillFS :=
  { fsGood with skillMdContent := "---\nname: 5\n---\nbody" }

/-- A well-formed skill folder whose document has no frontmatter at all. -/
def fsNoFront : SkillFS :=
  { fsGood with skillMdContent := "no frontmatter here" }

/-- A skill folder whose base name violates the naming convention. -/
def fsBadName : SkillFS :=
  { fsGood with
    path := "skills/My_Skill"
    folderName := "My_Skill"
    skillMdContent := "body" }


/-! ### Basic facts about the accumulators -/

theorem addErr_errors (st : VState) (m : String) :
    (addErr st m).errors = st.errors ++ [m] := rfl

theorem addErr_warnings (st : VState) (m : String) :
    (addErr st m).warnings = st.warnings := rfl

theorem addWarn_errors (st : VState) (m : String) :
    (addWarn st m).errors = st.errors := rfl

theorem addWarn_warnings (st : VState) (m : String) :
    (addWarn st m).warnings = st.warnings ++ [m] := rfl

theorem lineCountCheck_errors (c : String) (st : VState) :
    (lineCountCheck c st).errors = st.errors := by
  unfold lineCountCheck
  split <;> rfl

theorem lineCountCheck_split (c : String) (st : VState) :
    lineCountCheck c st =
      ⟨st.errors, st.warnings ++ (lineCountCheck c ⟨[], []⟩).warnings⟩ := by
  unfold lineCountCheck
  split <;> simp [addWarn]

/-! ### The line count is the newline count plus one -/

theorem splitOnCh_ne_nil (sep : Char) (l : List Char) : splitOnCh sep l ≠ [] := by
  cases l with
  | nil => simp [splitOnCh]
  | cons c t =>
    unfold splitOnCh
    by_cases h : c = sep
    · simp [h]
    · simp only [h, if_false]
      cases hs : splitOnCh sep t <;> simp

theorem splitOnCh_length (sep : Char) (l : List Char) :
    (splitOnCh sep l).length = l.count sep + 1 := by
  induction l with
  | nil => simp [splitOnCh]
  | cons c t ih =>
    unfold splitOnCh
    by_cases h : c = sep
    · subst h
      simp only [if_pos rfl, List.length_cons, List.count_cons, beq_self_eq_true,
        if_pos]
      omega
    · simp only [h, if_false]
      have hcount : (c :: t).count sep = t.count sep := by
        simp [List.count_cons, h, Ne.symm h]
      cases hs : splitOnCh sep t with
      | nil => exact absurd hs (splitOnCh_ne_nil sep t)
      | cons h0 r =>
        rw [hs] at ih
        simp only [List.length_cons] at ih ⊢
        rw [hcount]
        omega

theorem pySplitNl_length (l : List Char) :
    (pySplitNl l).length = l.count '\n' + 1 :=
  splitOnCh_length '\n' l

theorem lineCountCheck_eq (content : String) (st : VState) :
    lineCountCheck content st =
      if 500 ≤ content.toList.count '\n'
      then addWarn st
        ("SKILL.md has " ++ toString (content.toList.count '\n' + 1) ++
          " lines (recommended max: 500)")
      else st := by
  unfold lineCountCheck
  rw [pySplitNl_length]
  exact if_congr (by omega) rfl rfl

/-- C10 (confirmed): the advisory counts lines as the number of newline
characters plus one, because the raw text is split on `'\n'`; the warning
fires exactly when the text holds at least 500 newline characters, and a
document of 500 lines each ending in a newline is reported as having 501
lines. -/
theorem c10_line_count_advisory :
    (∀ l : List Char, (pySplitNl l).length = l.count '\n' + 1) ∧
    (∀ (content : String) (st : VState),
      lineCountCheck content st =
        if 500 ≤ content.toList.count '\n'
        then addWarn st
          ("SKILL.md has " ++ toString (content.toList.count '\n' + 1) ++
            " lines (recommended max: 500)")
        else st) ∧
    (∀ st : VState,
      lineCountCheck (String.mk (List.replicate 500 '\n')) st =
        addWarn st "SKILL.md has 501 lines (recommended max: 500)") := by
  refine ⟨pySplitNl_length, lineCountCheck_eq, ?_⟩
  intro st
  rw [lineCountCheck_eq]
  have hrep : ∀ n : Nat, (List.replicate n '\n').count '\n' = n := by
    intro n
    induction n with
    | zero => rfl
    | succ k ih => simp [List.replicate_succ, List.count_cons, ih]
  have hc : (String.mk (List.replicate 500 '\n')).toList.count '\n' = 500 :=
    hrep 500
  rw [hc]
  rw [if_pos (by omega)]
  rfl

/-! ### Splitting on the frontmatter delimiter -/

theorem strToList_append (a b : String) :
    (a ++ b).toList = a.toList ++ b.toList := by
  cases a
  cases b
  rfl

theorem strMk_toList (s : String) : String.mk s.toList = s := rfl

theorem isPrefixOf_append_self (sep rest : List Char) :
    sep.isPrefixOf (sep ++ rest) = true := by
  induction sep with
  | nil => simp [List.isPrefixOf]
  | cons c t ih => simp [List.isPrefixOf, ih]

theorem firstIdx_at_zero (sep rest : List Char) (h : sep ≠ []) :
    firstIdx sep (sep ++ rest) = some 0 := by
  cases sep with
  | nil => exact absurd rfl h
  | cons c t =>
    rw [List.cons_append]
    unfold firstIdx
    rw [← List.cons_append, isPrefixOf_append_self]
    rfl

theorem firstIdx_dashes (meta rest : List Char) (h : ∀ c ∈ meta, c ≠ '-') :
    firstIdx ['-', '-', '-'] (meta ++ '-' :: '-' :: '-' :: rest) = some meta.length := by
  induction meta with
  | nil =>
    have heq : ('-' :: '-' :: '-' :: rest : List Char) = ['-', '-', '-'] ++ rest := rfl
    rw [List.nil_append, heq]
    exact firstIdx_at_zero _ _ (by simp)
  | cons c t ih =>
    have hc : c ≠ '-' := h c (List.mem_cons_self _ _)
    have ht : ∀ x ∈ t, x ≠ '-' := fun x hx => h x (List.mem_cons_of_mem _ hx)
    rw [List.cons_append]
    unfold firstIdx
    have hpre : (['-', '-', '-'] : List Char).isPrefixOf
        (c :: (t ++ '-' :: '-' :: '-' :: rest)) = false := by
      simp [List.isPrefixOf]
      intro h'
      exact absurd h'.symm hc
    rw [hpre]
    simp [ih ht]

theorem pySplitCh_dashes (meta body : List Char) (h : ∀ c ∈ meta, c ≠ '-') :
    pySplitCh ['-', '-', '-'] 2 (['-', '-', '-'] ++ (meta ++ '-' :: '-' :: '-' :: body)) =
      [[], meta, body] := by
  unfold pySplitCh
  rw [firstIdx_at_zero _ _ (by simp)]
  have hdrop1 : ((['-', '-', '-'] : List Char) ++ (meta ++ '-' :: '-' :: '-' :: body)).drop
      (0 + (['-', '-', '-'] : List Char).length) = meta ++ '-' :: '-' :: '-' :: body := by
    rw [Nat.zero_add]
    exact List.drop_left _ _
  simp only [List.take_zero, hdrop1]
  unfold pySplitCh
  rw [firstIdx_dashes _ _ h]
  have htake : (meta ++ '-' :: '-' :: '-' :: body).take meta.length = meta :=
    List.take_left _ _
  have hdrop2 : (meta ++ '-' :: '-' :: '-' :: body).drop
      (meta.length + (['-', '-', '-'] : List Char).length) = body := by
    have hsplit : meta ++ '-' :: '-' :: '-' :: body =
        (meta ++ ['-', '-', '-']) ++ body := by simp
    rw [hsplit]
    have hlen : (meta ++ ['-', '-', '-']).length =
        meta.length + (['-', '-', '-'] : List Char).length := by simp
    rw [← hlen]
    exact List.drop_left _ _
  simp only [htake, hdrop2]
  rfl

theorem pySplit_dashes (meta body : String) (h : ∀ c ∈ meta.toList, c ≠ '-') :
    pySplit ("---" ++ meta ++ "---" ++ body) "---" 2 = ["", meta, body] := by
  have htl : ("---" ++ meta ++ "---" ++ body).toList =
      ['-', '-', '-'] ++ (meta.toList ++ '-' :: '-' :: '-' :: body.toList) := by
    simp [strToList_append]
  unfold pySplit
  rw [htl]
  rw [show ("---" : String).toList = ['-', '-', '-'] from rfl]
  rw [pySplitCh_dashes _ _ h]
  simp [strMk_toList]

theorem parseFrontmatter_decompose (decode : String → Except String Yaml)
    (meta body : String) (st : VState) (h : ∀ c ∈ meta.toList, c ≠ '-') :
    parseFrontmatter decode ("---" ++ meta ++ "---" ++ body) st =
      (match decode meta with
       | .ok Yaml.null => (none, st)
       | .ok v => (some v, st)
       | .error e => (none, addErr st ("YAML parsing error: " ++ e))) := by
  have hsw : pyStartsWith ("---" ++ meta ++ "---" ++ body) "---" = true := by
    unfold pyStartsWith
    have htl : ("---" ++ meta ++ "---" ++ body).toList =
        ['-', '-', '-'] ++ (meta.toList ++ '-' :: '-' :: '-' :: body.toList) := by
      simp [strToList_append]
    rw [htl]
    exact isPrefixOf_append_self _ _
  unfold parseFrontmatter
  rw [hsw, pySplit_dashes meta body h]
  simp [List.getD]

/-- C9 (confirmed): the frontmatter delimiter is matched as the 3-character
substring `---` rather than a whole line, and the text is split on at most
its first two occurrences: `---key: v---body` parses to the mapping of
`key` to `v` although its second `---` sits mid-line, and for a metadata
block free of `-` every later occurrence of `---` stays inside the third
segment as body text, leaving the parse result independent of the body. -/
theorem c9_substring_delimiter :
    (parseFrontmatter safeLoadModel "---key: v---body" ⟨[], []⟩ =
      (some (Yaml.map [("key", Yaml.str "v")]), ⟨[], []⟩)) ∧
    (∀ (decode : String → Except String Yaml) (meta bodyA bodyB : String) (st : VState),
      (∀ c ∈ meta.toList, c ≠ '-') →
      pySplit ("---" ++ meta ++ "---" ++ bodyA) "---" 2 = ["", meta, bodyA] ∧
      parseFrontmatter decode ("---" ++ meta ++ "---" ++ bodyA) st =
        parseFrontmatter decode ("---" ++ meta ++ "---" ++ bodyB) st) := by
  refine ⟨rfl, ?_⟩
  intro decode meta bodyA bodyB st h
  refine ⟨pySplit_dashes meta bodyA h, ?_⟩
  rw [parseFrontmatter_decompose decode meta bodyA st h,
    parseFrontmatter_decompose decode meta bodyB st h]

/-- Witness for C9: the general part applied to the block `key: v` with
bodies `body` and `x---y`. -/
theorem c9_substring_delimiter_witness :
    pySplit ("---" ++ "key: v" ++ "---" ++ "body") "---" 2 = ["", "key: v", "body"] ∧
    parseFrontmatter safeLoadModel ("---" ++ "key: v" ++ "---" ++ "body") ⟨[], []⟩ =
      parseFrontmatter safeLoadModel ("---" ++ "key: v" ++ "---" ++ "x---y") ⟨[], []⟩ :=
  c9_substring_delimiter.2 safeLoadModel "key: v" "body" "x---y" ⟨[], []⟩ (by decide)

/-! ### Characterising the deep-reference scan -/

theorem noNl_nil : noNl [] = true := rfl

theorem noNl_cons (c : Char) (t : List Char) :
    noNl (c :: t) = true ↔ c ≠ '\n' ∧ noNl t = true := by
  simp [noNl]

theorem closeBeforeNl_iff (t : List Char) :
    closeBeforeNl t = true ↔ ∃ B q, t = B ++ ')' :: q ∧ noNl B = true := by
  induction t with
  | nil =>
    constructor
    · intro h
      exact absurd h (by simp [closeBeforeNl])
    · rintro ⟨B, q, h, -⟩
      cases B <;> simp at h
  | cons c t ih =>
    by_cases hp : c = ')'
    · subst hp
      constructor
      · intro _
        exact ⟨[], t, rfl, rfl⟩
      · intro _
        simp [closeBeforeNl]
    · by_cases hn : c = '\n'
      · subst hn
        constructor
        · intro h
          simp [closeBeforeNl] at h
        · rintro ⟨B, q, h, hB⟩
          cases B with
          | nil => simp at h
          | cons b B2 =>
            simp at h
            obtain ⟨hb, -⟩ := h
            subst hb
            rw [noNl_cons] at hB
            exact absurd rfl hB.1
      · constructor
        · intro h
          have h' : closeBeforeNl t = true := by
            simpa [closeBeforeNl, hp, hn] using h
          obtain ⟨B, q, rfl, hB⟩ := ih.mp h'
          exact ⟨c :: B, q, rfl, (noNl_cons c B).mpr ⟨hn, hB⟩⟩
        · rintro ⟨B, q, h, hB⟩
          cases B with
          | nil =>
            simp at h
            exact absurd h.1 hp
          | cons b B2 =>
            simp at h
            obtain ⟨hb, ht⟩ := h
            subst hb
            have h2 := (noNl_cons c B2).mp hB
            have : closeBeforeNl t = true := ih.mpr ⟨B2, q, ht, h2.2⟩
            simpa [closeBeforeNl, hp, hn] using this

theorem checkTail_iff (t : List Char) :
    checkTail t = true ↔
      ∃ B q, t = '(' :: (dotsSeg ++ B ++ ')' :: q) ∧ noNl B = true := by
  constructor
  · intro h
    unfold checkTail at h
    rw [Bool.and_eq_true] at h
    obtain ⟨hpre, hclose⟩ := h
    obtain ⟨rest, hrest⟩ := List.isPrefixOf_iff_prefix.mp hpre
    have hdrop : t.drop 7 = rest := by
      rw [← hrest]
      rw [show (7 : Nat) = ('(' :: dotsSeg).length from by simp [dotsSeg]]
      exact List.drop_left _ _
    rw [hdrop] at hclose
    obtain ⟨B, q, rfl, hB⟩ := (closeBeforeNl_iff rest).mp hclose
    refine ⟨B, q, ?_, hB⟩
    rw [← hrest]
    simp [dotsSeg]
  · rintro ⟨B, q, rfl, hB⟩
    unfold checkTail
    rw [Bool.and_eq_true]
    constructor
    · apply List.isPrefixOf_iff_prefix.mpr
      exact ⟨B ++ ')' :: q, by simp [dotsSeg]⟩
    · have hdrop : ('(' :: (dotsSeg ++ B ++ ')' :: q)).drop 7 = B ++ ')' :: q := by
        have heq : ('(' :: (dotsSeg ++ B ++ ')' :: q)) =
            ('(' :: dotsSeg) ++ (B ++ ')' :: q) := by simp [dotsSeg]
        rw [heq]
        rw [show (7 : Nat) = ('(' :: dotsSeg).length from by simp [dotsSeg]]
        exact List.drop_left _ _
      rw [hdrop]
      exact (closeBeforeNl_iff _).mpr ⟨B, q, rfl, hB⟩

theorem scanLabel_iff (t : List Char) :
    scanLabel t = true ↔
      ∃ A rest, t = A ++ ']' :: rest ∧ noNl A = true ∧ checkTail rest = true := by
  induction t with
  | nil =>
    constructor
    · intro h
      simp [scanLabel] at h
    · rintro ⟨A, rest, h, -, -⟩
      cases A <;> simp at h
  | cons c t ih =>
    by_cases hn : c = '\n'
    · subst hn
      constructor
      · intro h
        simp [scanLabel] at h
      · rintro ⟨A, rest, h, hA, -⟩
        cases A with
        | nil => simp at h
        | cons a A2 =>
          simp at h
          obtain ⟨ha, -⟩ := h
          subst ha
          exact absurd rfl ((noNl_cons _ _).mp hA).1
    · by_cases hb : c = ']'
      · subst hb
        have hstep : scanLabel (']' :: t) = (checkTail t || scanLabel t) := by
          simp [scanLabel]
        constructor
        · intro h
          rw [hstep, Bool.or_eq_true] at h
          rcases h with h | h
          · exact ⟨[], t, rfl, rfl, h⟩
          · obtain ⟨A, rest, rfl, hA, hct⟩ := ih.mp h
            exact ⟨']' :: A, rest, rfl, (noNl_cons _ _).mpr ⟨by decide, hA⟩, hct⟩
        · rintro ⟨A, rest, h, hA, hct⟩
          rw [hstep, Bool.or_eq_true]
          cases A with
          | nil =>
            simp at h
            subst h
            exact Or.inl hct
          | cons a A2 =>
            simp at h
            obtain ⟨-, ht⟩ := h
            exact Or.inr (ih.mpr ⟨A2, rest, ht, ((noNl_cons _ _).mp hA).2, hct⟩)
      · have hstep : scanLabel (c :: t) = scanLabel t := by
          simp [scanLabel, hn, hb]
        constructor
        · intro h
          rw [hstep] at h
          obtain ⟨A, rest, rfl, hA, hct⟩ := ih.mp h
          exact ⟨c :: A, rest, rfl, (noNl_cons _ _).mpr ⟨hn, hA⟩, hct⟩
        · rintro ⟨A, rest, h, hA, hct⟩
          rw [hstep]
          cases A with
          | nil =>
            simp at h
            exact absurd h.1 hb
          | cons a A2 =>
            simp at h
            obtain ⟨ha, ht⟩ := h
            exact ih.mpr ⟨A2, rest, ht, ((noNl_cons _ _).mp (ha ▸ hA)).2, hct⟩

theorem refSearch_iff (l : List Char) :
    refSearch l = true ↔ RefMatchShape l := by
  induction l with
  | nil =>
    constructor
    · intro h
      simp [refSearch] at h
    · rintro ⟨p, A, B, q, h, -, -⟩
      cases p <;> simp at h
  | cons c t ih =>
    by_cases hc : c = '['
    · subst hc
      have hstep : refSearch ('[' :: t) = (scanLabel t || refSearch t) := by
        simp [refSearch]
      constructor
      · intro h
        rw [hstep, Bool.or_eq_true] at h
        rcases h with h | h
        · obtain ⟨A, rest, rfl, hA, hct⟩ := (scanLabel_iff t).mp h
          obtain ⟨B, q, rfl, hB⟩ := (checkTail_iff rest).mp hct
          exact ⟨[], A, B, q, rfl, hA, hB⟩
        · obtain ⟨p, A, B, q, rfl, hA, hB⟩ := ih.mp h
          exact ⟨'[' :: p, A, B, q, rfl, hA, hB⟩
      · rintro ⟨p, A, B, q, h, hA, hB⟩
        rw [hstep, Bool.or_eq_true]
        cases p with
        | nil =>
          simp at h
          subst h
          refine Or.inl ((scanLabel_iff _).mpr ⟨A, '(' :: (dotsSeg ++ B ++ ')' :: q), rfl, hA, ?_⟩)
          exact (checkTail_iff _).mpr ⟨B, q, rfl, hB⟩
        | cons p0 p2 =>
          simp at h
          obtain ⟨-, ht⟩ := h
          exact Or.inr (ih.mpr ⟨p2, A, B, q, ht, hA, hB⟩)
    · have hstep : refSearch (c :: t) = refSearch t := by
        simp [refSearch, hc]
      constructor
      · intro h
        rw [hstep] at h
        obtain ⟨p, A, B, q, rfl, hA, hB⟩ := ih.mp h
        exact ⟨c :: p, A, B, q, rfl, hA, hB⟩
      · rintro ⟨p, A, B, q, h, hA, hB⟩
        rw [hstep]
        cases p with
        | nil =>
          simp at h
          exact absurd h.1 hc
        | cons p0 p2 =>
          simp at h
          obtain ⟨-, ht⟩ := h
          exact ih.mpr ⟨p2, A, B, q, ht, hA, hB⟩

theorem validateContent_deep_count (c : String) :
    (validateContent c ⟨[], []⟩).warnings.count
        "Deeply nested file references detected (avoid ../..)" =
      if refSearch c.toList then 1 else 0 := by
  cases h1 : containsSeq "when to use".toList (lowerString c).toList <;>
    cases h2 : containsSeq "quick start".toList (lowerString c).toList <;>
      cases h3 : containsSeq "example".toList (lowerString c).toList <;>
        cases h4 : refSearch c.toList <;>
          simp only [validateContent, h1, h2, h3, h4, Bool.not_false, Bool.not_true,
            if_true, if_false, addWarn] <;>
            decide

/-- C3 counterexample: in `[x](docs/../../y)` a bracketed label is
immediately followed by a parenthesized target containing `../../`, which
is the claim's condition for the warning, yet the content checker emits no
deep-reference warning, because the embedded pattern demands the traversal
segments immediately after the opening parenthesis. -/
theorem c3_counterexample :
    ClaimDeepLink "[x](docs/../../y)".toList ∧
    (validateContent "[x](docs/../../y)" ⟨[], []⟩).warnings.count
      "Deeply nested file references detected (avoid ../..)" = 0 := by
  constructor
  · exact ⟨[], "x".toList, "docs/../../y".toList, [], by decide, by decide⟩
  · decide

/-- C3 (corrected): the deep-reference warning is emitted — and emitted at
most once however many links match — exactly when the text matches the
pattern on line 202, whose matches are the decompositions
`p ++ "[" ++ A ++ "](" ++ "../../" ++ B ++ ")" ++ q` with `A` and `B`
newline-free: the `../` repetitions must stand immediately after the
opening parenthesis of the target, not merely anywhere inside it. -/
theorem c3_deep_reference_scan (content : String) :
    ((validateContent content ⟨[], []⟩).warnings.count
        "Deeply nested file references detected (avoid ../..)" =
      if refSearch content.toList then 1 else 0) ∧
    (refSearch content.toList = true ↔ RefMatchShape content.toList) :=
  ⟨validateContent_deep_count content, refSearch_iff content.toList⟩

/-! ### The structure checker and runs without frontmatter -/

theorem appendSingleton_not_isEmpty (l : List String) (x : String) :
    (l ++ [x]).isEmpty = false := by
  cases l <;> rfl

theorem validateFolderStructure_warnings (fs : SkillFS) (st : VState) :
    (validateFolderStructure fs st).warnings = st.warnings := by
  unfold validateFolderStructure
  split
  · rfl
  · split
    · rfl
    · split
      · rfl
      · split <;> rfl

theorem validateFolderStructure_empty (fs : SkillFS)
    (h : (validateFolderStructure fs ⟨[], []⟩).errors = []) :
    fs.pathExists = true ∧ fs.isDir = true ∧ fs.skillMdExists = true ∧
      pyNameMatch fs.folderName = true ∧
      validateFolderStructure fs ⟨[], []⟩ = ⟨[], []⟩ := by
  unfold validateFolderStructure at h
  cases he : fs.pathExists with
  | false => rw [he] at h; simp [addErr] at h
  | true =>
  rw [he] at h
  cases hd : fs.isDir with
  | false => rw [hd] at h; simp [addErr] at h
  | true =>
  rw [hd] at h
  cases hm : fs.skillMdExists with
  | false => rw [hm] at h; simp [addErr] at h
  | true =>
  rw [hm] at h
  cases hn : pyNameMatch fs.folderName with
  | false => rw [hn] at h; simp [addErr] at h
  | true =>
  refine ⟨rfl, rfl, rfl, rfl, ?_⟩
  unfold validateFolderStructure
  rw [he, hd, hm, hn]
  simp

theorem validate_no_frontmatter (decode : String → Except String Yaml)
    (fs : SkillFS) (h3 : fs.skillMdExists = true)
    (hsw : pyStartsWith fs.skillMdContent "---" = false) :
    validate decode fs =
      .ok (false,
        (validateFolderStructure fs ⟨[], []⟩).errors ++
          ["Invalid or missing YAML frontmatter"],
        (validateFolderStructure fs ⟨[], []⟩).warnings ++
          (lineCountCheck fs.skillMdContent ⟨[], []⟩).warnings) := by
  unfold validate validateSkillMd parseFrontmatter
  rw [h3, hsw]
  rw [lineCountCheck_split fs.skillMdContent (validateFolderStructure fs ⟨[], []⟩)]
  simp [addErr, appendSingleton_not_isEmpty]

/-- C5 (confirmed): when the structure checks emit no error and the
document does not start with `---`, the run's final error list is exactly
the single error `Invalid or missing YAML frontmatter`, and no
metadata-field or content check executes: the warnings are exactly those
of the line-count advisory. -/
theorem c5_missing_delimiter (decode : String → Except String Yaml) (fs : SkillFS)
    (hstruct : (validateFolderStructure fs ⟨[], []⟩).errors = [])
    (hsw : pyStartsWith fs.skillMdContent "---" = false) :
    validate decode fs =
      .ok (false, ["Invalid or missing YAML frontmatter"],
        (lineCountCheck fs.skillMdContent ⟨[], []⟩).warnings) := by
  obtain ⟨-, -, h3, -, -⟩ := validateFolderStructure_empty fs hstruct
  rw [validate_no_frontmatter decode fs h3 hsw, hstruct,
    validateFolderStructure_warnings]
  simp

/-- Witness for C5 at a concrete folder whose document reads
`no frontmatter here`. -/
theorem c5_missing_delimiter_witness :
    validate safeLoadModel fsNoFront =
      .ok (false, ["Invalid or missing YAML frontmatter"],
        (lineCountCheck fsNoFront.skillMdContent ⟨[], []⟩).warnings) :=
  c5_missing_delimiter safeLoadModel fsNoFront (by decide) (by decide)

/-- C6 counterexample: the directory base name `my-skill` followed by a
newline is outside the language of `^[a-z0-9]+(-[a-z0-9]+)*$`, yet for a
folder of that name — existing, a directory, holding `SKILL.md` — the
structure checker emits no error, because the embedded `$` of the host
regex engine also matches just before a trailing newline.  The claim
demands exactly one error for every non-matching base name. -/
theorem c6_counterexample :
    nameLang "my-skill\n".toList = false ∧
    fsNlName.folderName = "my-skill\n" ∧
    fsNlName.pathExists = true ∧ fsNlName.isDir = true ∧
    fsNlName.skillMdExists = true ∧
    (validateFolderStructure fsNlName ⟨[], []⟩).errors = [] := by
  decide

/-- C6 (corrected): once the folder exists, is a directory and holds
`SKILL.md`, the name check emits no error exactly when the base name
matches `^[a-z0-9]+(-[a-z0-9]+)*$` — or is such a match followed by one
trailing newline, an artifact of the regex engine's `$` — and emits
exactly the one folder-name error otherwise; the violation is not fatal:
the document checks still run and append their findings afterwards. -/
theorem c6_folder_name_check (fs : SkillFS)
    (h1 : fs.pathExists = true) (h2 : fs.isDir = true)
    (h3 : fs.skillMdExists = true) :
    ((validateFolderStructure fs ⟨[], []⟩).errors =
      if pyNameMatch fs.folderName then []
      else ["Folder name '" ++ fs.folderName ++ "' invalid. " ++
        "Use lowercase letters, numbers, and hyphens only."]) ∧
    (pyNameMatch fs.folderName = true ↔
      (nameLang fs.folderName.toList = true ∨
        (fs.folderName.toList.getLast? = some '\n' ∧
          nameLang fs.folderName.toList.dropLast = true))) ∧
    (∀ decode, pyStartsWith fs.skillMdContent "---" = false →
      validate decode fs =
        .ok (false,
          (if pyNameMatch fs.folderName then []
           else ["Folder name '" ++ fs.folderName ++ "' invalid. " ++
             "Use lowercase letters, numbers, and hyphens only."]) ++
            ["Invalid or missing YAML frontmatter"],
          (lineCountCheck fs.skillMdContent ⟨[], []⟩).warnings)) := by
  have herr : (validateFolderStructure fs ⟨[], []⟩).errors =
      if pyNameMatch fs.folderName then []
      else ["Folder name '" ++ fs.folderName ++ "' invalid. " ++
        "Use lowercase letters, numbers, and hyphens only."] := by
    unfold validateFolderStructure
    rw [h1, h2, h3]
    cases hn : pyNameMatch fs.folderName <;> simp [hn, addErr]
  refine ⟨herr, ?_, ?_⟩
  · simp [pyNameMatch, Bool.or_eq_true, Bool.and_eq_true, beq_iff_eq]
  · intro decode hsw
    rw [validate_no_frontmatter decode fs h3 hsw, herr,
      validateFolderStructure_warnings]
    simp

/-- Witness for C6: the folder named `My_Skill` draws exactly the one
folder-name error. -/
theorem c6_folder_name_check_witness :
    (validateFolderStructure fsBadName ⟨[], []⟩).errors =
      ["Folder name 'My_Skill' invalid. Use lowercase letters, numbers, and hyphens only."] := by
  have h := (c6_folder_name_check fsBadName rfl rfl rfl).1
  rw [h]
  decide

/-- C8 (confirmed): whenever a run completes, the returned validity flag
is the emptiness of the accumulated error list — warnings play no role in
it. -/
theorem c8_validity (decode : String → Except String Yaml) (fs : SkillFS)
    (v : Bool) (es ws : List String)
    (h : validate decode fs = .ok (v, es, ws)) :
    v = es.isEmpty ∧ (v = true ↔ es = []) := by
  unfold validate at h
  cases hs : validateSkillMd decode fs (validateFolderStructure fs ⟨[], []⟩) with
  | ok st =>
    rw [hs] at h
    simp only [Except.ok.injEq, Prod.mk.injEq] at h
    obtain ⟨h1, h2, -⟩ := h
    subst h1
    subst h2
    simp [List.isEmpty_iff]
  | error e =>
    rw [hs] at h
    simp at h

/-- Witness for C8 at the fully conventional skill, whose run returns
`(true, [], [])`. -/
theorem c8_validity_witness :
    (true : Bool) = ([] : List String).isEmpty ∧
    ((true : Bool) = true ↔ ([] : List String) = []) :=
  c8_validity safeLoadModel fsGood true [] [] rfl

/-! ### Parse-failure paths of the document checker -/

/-- C1 counterexample: for a document whose metadata block between the two
delimiters is blank, the parser does not hand an empty mapping to the
field checks — the decoder returns null for a blank stream, which the
caller cannot tell from failure — so the run records
`Invalid or missing YAML frontmatter` and the missing-description error is
never recorded, contradicting the claim. -/
theorem c1_counterexample :
    parseFrontmatter safeLoadModel fsBlankBlock.skillMdContent ⟨[], []⟩ =
      (none, ⟨[], []⟩) ∧
    validate safeLoadModel fsBlankBlock =
      .ok (false, ["Invalid or missing YAML frontmatter"], []) ∧
    "Missing required 'description' field" ∉
      ["Invalid or missing YAML frontmatter"] :=
  ⟨rfl, rfl, by decide⟩

/-- C1 (corrected): when the text starts with `---`, splits into at least
three segments, and the blank block between the delimiters decodes to
null — as PyYAML decodes every whitespace-only stream — the parser
reports failure, the run records exactly the error
`Invalid or missing YAML frontmatter`, and metadata-field validation does
not run on an empty mapping (no missing-description error arises): the
warnings are exactly those of the line-count advisory. -/
theorem c1_blank_block (decode : String → Except String Yaml) (fs : SkillFS)
    (st : VState) (h3 : fs.skillMdExists = true)
    (hsw : pyStartsWith fs.skillMdContent "---" = true)
    (hlen : ¬ (pySplit fs.skillMdContent "---" 2).length < 3)
    (_hblank : ((pySplit fs.skillMdContent "---" 2).getD 1 "").toList.all isSpaceCh = true)
    (hdec : decode ((pySplit fs.skillMdContent "---" 2).getD 1 "") = .ok Yaml.null) :
    parseFrontmatter decode fs.skillMdContent st = (none, st) ∧
    validateSkillMd decode fs st =
      .ok ⟨st.errors ++ ["Invalid or missing YAML frontmatter"],
        (lineCountCheck fs.skillMdContent st).warnings⟩ := by
  have hparse : ∀ st0 : VState,
      parseFrontmatter decode fs.skillMdContent st0 = (none, st0) := by
    intro st0
    unfold parseFrontmatter
    rw [hsw, hdec, if_neg hlen]
    simp
  refine ⟨hparse st, ?_⟩
  unfold validateSkillMd
  rw [h3]
  rw [hparse (lineCountCheck fs.skillMdContent st)]
  simp [addErr, lineCountCheck_errors]

/-- Witness for C1: the blank-block fixture, decoded by the model
decoder. -/
theorem c1_blank_block_witness :
    parseFrontmatter safeLoadModel fsBlankBlock.skillMdContent ⟨[], []⟩ =
      (none, ⟨[], []⟩) ∧
    validateSkillMd safeLoadModel fsBlankBlock ⟨[], []⟩ =
      .ok ⟨[] ++ ["Invalid or missing YAML frontmatter"],
        (lineCountCheck fsBlankBlock.skillMdContent ⟨[], []⟩).warnings⟩ :=
  c1_blank_block safeLoadModel fsBlankBlock ⟨[], []⟩ rfl (by decide) (by decide)
    (by decide) rfl

/-- C4 counterexample: when the block `[` fails to decode, the run records
the wrapped decoder error and additionally the generic error
`Invalid or missing YAML frontmatter` — the claim asserts the generic
error is not recorded in this case. -/
theorem c4_counterexample :
    validate safeLoadModel fsYamlErr =
      .ok (false,
        ["YAML parsing error: expected the node content, but found '<stream end>'",
         "Invalid or missing YAML frontmatter"], []) ∧
    "Invalid or missing YAML frontmatter" ∈
      ["YAML parsing error: expected the node content, but found '<stream end>'",
       "Invalid or missing YAML frontmatter"] :=
  ⟨rfl, by decide⟩

/-- C4 (corrected): when the text starts with `---`, splits into at least
three segments, and the block fails to decode with message `d`, the run
records `YAML parsing error: d` and then also the generic error
`Invalid or missing YAML frontmatter` — the caller cannot distinguish a
decode failure from the other parse failures — and performs no
metadata-field or content checks: the warnings are exactly those of the
line-count advisory. -/
theorem c4_decode_error (decode : String → Except String Yaml) (fs : SkillFS)
    (st : VState) (d : String) (h3 : fs.skillMdExists = true)
    (hsw : pyStartsWith fs.skillMdContent "---" = true)
    (hlen : ¬ (pySplit fs.skillMdContent "---" 2).length < 3)
    (hdec : decode ((pySplit fs.skillMdContent "---" 2).getD 1 "") = .error d) :
    validateSkillMd decode fs st =
      .ok ⟨st.errors ++
          ["YAML parsing error: " ++ d, "Invalid or missing YAML frontmatter"],
        (lineCountCheck fs.skillMdContent st).warnings⟩ := by
  unfold validateSkillMd parseFrontmatter
  rw [h3, hsw, hdec, if_neg hlen]
  simp [addErr, lineCountCheck_errors]

/-- Witness for C4: the fixture whose block is `[`. -/
theorem c4_decode_error_witness :
    validateSkillMd safeLoadModel fsYamlErr ⟨[], []⟩ =
      .ok ⟨[] ++
          ["YAML parsing error: expected the node content, but found '<stream end>'",
           "Invalid or missing YAML frontmatter"],
        (lineCountCheck fsYamlErr.skillMdContent ⟨[], []⟩).warnings⟩ :=
  c4_decode_error safeLoadModel fsYamlErr ⟨[], []⟩
    "expected the node content, but found '<stream end>'" rfl (by decide)
    (by decide) rfl

/-! ### The frontmatter field checks on benign mappings -/

theorem exceptBind_ok {α β : Type} (a : α) (f : α → Except PyExc β) :
    (Except.ok a : Except PyExc α) >>= f = f a := rfl

theorem ne_of_toList_head (a b : String) (h : a.toList.head? ≠ b.toList.head?) :
    a ≠ b :=
  fun hc => h (congrArg (fun s : String => s.toList.head?) hc)

theorem head_name_msg (s t : String) :
    (("Name '" ++ s) ++ t).toList.head? = some 'N' := by
  rw [strToList_append, strToList_append]
  rfl

theorem nameMsg_ne_descMsg (s t : String) :
    ("Name '" ++ s) ++ t ≠ "Missing required 'description' field" :=
  ne_of_toList_head _ _ (by rw [head_name_msg]; decide)

theorem foldl_unknown_errors (items : List Yaml) (st : VState) :
    (items.foldl
      (fun s k =>
        if keyInValidSet k then s
        else addWarn s ("Unknown frontmatter key: '" ++ pyStr k ++ "'")) st).errors =
      st.errors := by
  induction items generalizing st with
  | nil => rfl
  | cons k items ih =>
    simp only [List.foldl_cons]
    rw [ih]
    split <;> rfl

theorem checkUnknownKeys_map (kvs : List (String × Yaml)) (st : VState) :
    ∃ st', checkUnknownKeys (Yaml.map kvs) st = .ok st' ∧ st'.errors = st.errors := by
  refine ⟨_, rfl, ?_⟩
  exact foldl_unknown_errors _ st

theorem strOrFalsy_truthy (v : Yaml) (h1 : strOrFalsy v = true)
    (h2 : v.truthy = true) : ∃ s, v = Yaml.str s ∧ s ≠ "" := by
  cases v with
  | str s => exact ⟨s, rfl, by simpa [Yaml.truthy] using h2⟩
  | null => simp [Yaml.truthy] at h2
  | bool b =>
    simp [Yaml.truthy] at h2
    simp [strOrFalsy, Yaml.truthy, Yaml.isStr, h2] at h1
  | int n =>
    simp [Yaml.truthy] at h2
    simp [strOrFalsy, Yaml.truthy, Yaml.isStr, h2] at h1
  | list xs =>
    simp [Yaml.truthy] at h2
    simp [strOrFalsy, Yaml.truthy, Yaml.isStr, h2] at h1
  | map kvs =>
    simp [Yaml.truthy] at h2
    simp [strOrFalsy, Yaml.truthy, Yaml.isStr, h2] at h1

theorem checkName_ok (fn : String) (kvs : List (String × Yaml)) (st : VState)
    (h : strOrFalsy (dictGet kvs "name") = true) :
    ∃ E W, checkName fn (Yaml.map kvs) st = .ok ⟨st.errors ++ E, st.warnings ++ W⟩ ∧
      "Missing required 'description' field" ∉ E := by
  unfold checkName
  rw [show pyGet (Yaml.map kvs) "name" = Except.ok (dictGet kvs "name") from rfl,
    exceptBind_ok]
  cases ht : (dictGet kvs "name").truthy with
  | false =>
    refine ⟨[], ["No 'name' field in frontmatter (will use folder name)"], ?_, by decide⟩
    simp [addWarn]
    rfl
  | true =>
    obtain ⟨s, hs, hne⟩ := strOrFalsy_truthy _ h ht
    rw [hs]
    have hlenr : pyLen (Yaml.str s) = Except.ok s.length := rfl
    have hmr : reMatchName (Yaml.str s) = Except.ok (pyNameMatch s) := rfl
    by_cases h64 : s.length > 64 <;> cases hpat : pyNameMatch s <;> cases hfold : s == fn
    · exact ⟨["Name '" ++ s ++ "' exceeds max length (64 chars)",
        "Name '" ++ s ++ "' invalid. Use lowercase, numbers, hyphens only."],
        ["Name '" ++ s ++ "' doesn't match folder '" ++ fn ++ "'"],
        by simp [hlenr, hmr, exceptBind_ok, h64, hpat, hfold, yamlEqStr, pyStr,
          addErr, addWarn],
        by simp [List.mem_cons,
          Ne.symm (nameMsg_ne_descMsg s "' exceeds max length (64 chars)"),
          Ne.symm (nameMsg_ne_descMsg s "' invalid. Use lowercase, numbers, hyphens only.")]⟩
    · exact ⟨["Name '" ++ s ++ "' exceeds max length (64 chars)",
        "Name '" ++ s ++ "' invalid. Use lowercase, numbers, hyphens only."], [],
        by simp [hlenr, hmr, exceptBind_ok, h64, hpat, hfold, yamlEqStr, pyStr,
          addErr, addWarn],
        by simp [List.mem_cons,
          Ne.symm (nameMsg_ne_descMsg s "' exceeds max length (64 chars)"),
          Ne.symm (nameMsg_ne_descMsg s "' invalid. Use lowercase, numbers, hyphens only.")]⟩
    · exact ⟨["Name '" ++ s ++ "' exceeds max length (64 chars)"],
        ["Name '" ++ s ++ "' doesn't match folder '" ++ fn ++ "'"],
        by simp [hlenr, hmr, exceptBind_ok, h64, hpat, hfold, yamlEqStr, pyStr,
          addErr, addWarn],
        by simp [List.mem_cons,
          Ne.symm (nameMsg_ne_descMsg s "' exceeds max length (64 chars)")]⟩
    · exact ⟨["Name '" ++ s ++ "' exceeds max length (64 chars)"], [],
        by simp [hlenr, hmr, exceptBind_ok, h64, hpat, hfold, yamlEqStr, pyStr,
          addErr, addWarn],
        by simp [List.mem_cons,
          Ne.symm (nameMsg_ne_descMsg s "' exceeds max length (64 chars)")]⟩
    · exact ⟨["Name '" ++ s ++ "' invalid. Use lowercase, numbers, hyphens only."],
        ["Name '" ++ s ++ "' doesn't match folder '" ++ fn ++ "'"],
        by simp [hlenr, hmr, exceptBind_ok, h64, hpat, hfold, yamlEqStr, pyStr,
          addErr, addWarn],
        by simp [List.mem_cons,
          Ne.symm (nameMsg_ne_descMsg s "' invalid. Use lowercase, numbers, hyphens only.")]⟩
    · exact ⟨["Name '" ++ s ++ "' invalid. Use lowercase, numbers, hyphens only."], [],
        by simp [hlenr, hmr, exceptBind_ok, h64, hpat, hfold, yamlEqStr, pyStr,
          addErr, addWarn],
        by simp [List.mem_cons,
          Ne.symm (nameMsg_ne_descMsg s "' invalid. Use lowercase, numbers, hyphens only.")]⟩
    · exact ⟨[], ["Name '" ++ s ++ "' doesn't match folder '" ++ fn ++ "'"],
        by simp [hlenr, hmr, exceptBind_ok, h64, hpat, hfold, yamlEqStr, pyStr,
          addErr, addWarn],
        by simp⟩
    · exact ⟨[], [],
        by simp [hlenr, hmr, exceptBind_ok, h64, hpat, hfold, yamlEqStr, pyStr,
          addErr, addWarn],
        by simp⟩

theorem checkDescription_falsy (kvs : List (String × Yaml)) (st : VState)
    (h : (dictGet kvs "description").truthy = false) :
    checkDescription (Yaml.map kvs) st =
      .ok (addErr st "Missing required 'description' field") := by
  unfold checkDescription
  rw [show pyGet (Yaml.map kvs) "description" =
      Except.ok (dictGet kvs "description") from rfl, exceptBind_ok]
  rw [h]
  rfl

theorem checkDescription_str (kvs : List (String × Yaml)) (st : VState)
    (s : String) (hd : dictGet kvs "description" = Yaml.str s) (hne : s ≠ "") :
    ∃ E W, checkDescription (Yaml.map kvs) st =
        .ok ⟨st.errors ++ E, st.warnings ++ W⟩ ∧
      "Missing required 'description' field" ∉ E := by
  unfold checkDescription
  rw [show pyGet (Yaml.map kvs) "description" =
      Except.ok (dictGet kvs "description") from rfl, exceptBind_ok, hd]
  have htr : (Yaml.str s).truthy = true := by simpa [Yaml.truthy] using hne
  rw [htr, if_pos rfl]
  rw [show pyLen (Yaml.str s) = Except.ok s.length from rfl]
  rw [show pyLower (Yaml.str s) = Except.ok (lowerString s) from rfl]
  simp only [exceptBind_ok]
  by_cases h1024 : s.length > 1024 <;>
    [rw [if_pos h1024]; rw [if_neg h1024]] <;>
    cases hu : containsSeq "use when".toList (lowerString s).toList <;>
      cases hfp : (pyStartsWith (lowerString s) "i " || pyStartsWith (lowerString s) "i'" ||
        pyStartsWith (lowerString s) "we ")
  · exact ⟨["Description exceeds max length (1024 chars)"],
      ["Description should include 'Use when...' trigger conditions"],
      by simp [addErr, addWarn]; rfl, by decide⟩
  · exact ⟨["Description exceeds max length (1024 chars)"],
      ["Description should include 'Use when...' trigger conditions",
       "Description should be in third person (avoid 'I' or 'We')"],
      by simp [addErr, addWarn]; rfl, by decide⟩
  · exact ⟨["Description exceeds max length (1024 chars)"], [],
      by simp [addErr, addWarn]; rfl, by decide⟩
  · exact ⟨["Description exceeds max length (1024 chars)"],
      ["Description should be in third person (avoid 'I' or 'We')"],
      by simp [addErr, addWarn]; rfl, by decide⟩
  · exact ⟨[], ["Description should include 'Use when...' trigger conditions"],
      by simp [addErr, addWarn]; rfl, by decide⟩
  · exact ⟨[], ["Description should include 'Use when...' trigger conditions",
      "Description should be in third person (avoid 'I' or 'We')"],
      by simp [addErr, addWarn]; rfl, by decide⟩
  · exact ⟨[], [],
      by simp [addErr, addWarn]; rfl, by decide⟩
  · exact ⟨[], ["Description should be in third person (avoid 'I' or 'We')"],
      by simp [addErr, addWarn]; rfl, by decide⟩

theorem exceptPureBind {α β : Type} (a : α) (f : α → Except PyExc β) :
    (pure a : Except PyExc α) >>= f = f a := rfl

theorem checkBoolFields_map (kvs : List (String × Yaml)) (st : VState) :
    ∃ E, checkBoolFields (Yaml.map kvs) st = .ok ⟨st.errors ++ E, st.warnings⟩ ∧
      "Missing required 'description' field" ∉ E := by
  unfold checkBoolFields boolFieldCheck
  rw [show pyGet (Yaml.map kvs) "disable-model-invocation" =
      Except.ok (dictGet kvs "disable-model-invocation") from rfl]
  rw [show pyGet (Yaml.map kvs) "user-invocable" =
      Except.ok (dictGet kvs "user-invocable") from rfl]
  simp only [exceptBind_ok, exceptPureBind]
  cases h1 : (!(dictGet kvs "disable-model-invocation").isNull &&
      !(dictGet kvs "disable-model-invocation").isBool) <;>
    cases h2 : (!(dictGet kvs "user-invocable").isNull &&
      !(dictGet kvs "user-invocable").isBool)
  · exact ⟨[], by simp [addErr]; rfl, by decide⟩
  · exact ⟨["'user-invocable' must be a boolean (true/false)"],
      by simp [addErr]; rfl, by decide⟩
  · exact ⟨["'disable-model-invocation' must be a boolean (true/false)"],
      by simp [addErr]; rfl, by decide⟩
  · exact ⟨["'disable-model-invocation' must be a boolean (true/false)",
      "'user-invocable' must be a boolean (true/false)"],
      by simp [addErr]; rfl, by decide⟩

theorem validateFrontmatter_benign (fn : String) (kvs : List (String × Yaml))
    (st : VState) (hname : strOrFalsy (dictGet kvs "name") = true)
    (hdesc : strOrFalsy (dictGet kvs "description") = true) :
    ∃ st', validateFrontmatter fn (Yaml.map kvs) st = .ok st' ∧
      ("Missing required 'description' field" ∈ st'.errors ↔
        "Missing required 'description' field" ∈ st.errors ∨
          (dictGet kvs "description").truthy = false) := by
  unfold validateFrontmatter
  rw [show (Yaml.map kvs).isNull = false from rfl]
  simp only [Bool.false_eq_true, if_false]
  obtain ⟨stA, hA, hAerr⟩ := checkUnknownKeys_map kvs st
  rw [hA]
  simp only [exceptBind_ok]
  obtain ⟨E1, W1, hB, hB1⟩ := checkName_ok fn kvs stA hname
  rw [hB]
  simp only [exceptBind_ok]
  cases ht : (dictGet kvs "description").truthy with
  | false =>
    rw [checkDescription_falsy kvs _ ht]
    simp only [exceptBind_ok]
    obtain ⟨E3, hD, hD1⟩ := checkBoolFields_map kvs
      (addErr ⟨stA.errors ++ E1, stA.warnings ++ W1⟩
        "Missing required 'description' field")
    rw [hD]
    refine ⟨_, rfl, ?_⟩
    simp [addErr, hAerr, List.mem_append]
  | true =>
    obtain ⟨s, hs, hne⟩ := strOrFalsy_truthy _ hdesc ht
    obtain ⟨E2, W2, hC, hC1⟩ := checkDescription_str kvs
      ⟨stA.errors ++ E1, stA.warnings ++ W1⟩ s hs hne
    rw [hC]
    simp only [exceptBind_ok]
    obtain ⟨E3, hD, hD1⟩ := checkBoolFields_map kvs
      ⟨(stA.errors ++ E1) ++ E2, (stA.warnings ++ W1) ++ W2⟩
    rw [hD]
    refine ⟨_, rfl, ?_⟩
    simp [hAerr, List.mem_append, hB1, hC1, hD1]

theorem validateSkillMd_benign_ok (decode : String → Except String Yaml)
    (fs : SkillFS) (st : VState)
    (h : ∀ fm st0 st', parseFrontmatter decode fs.skillMdContent st0 = (some fm, st') →
      benignFm fm = true) :
    ∃ st2, validateSkillMd decode fs st = .ok st2 := by
  unfold validateSkillMd
  cases he : fs.skillMdExists with
  | false => exact ⟨st, by simp⟩
  | true =>
    simp only [Bool.not_true, Bool.false_eq_true, if_false]
    cases hp : parseFrontmatter decode fs.skillMdContent
        (lineCountCheck fs.skillMdContent st) with
    | mk fmOpt st2 =>
      cases fmOpt with
      | none => exact ⟨_, rfl⟩
      | some fm =>
        have hb := h fm _ _ hp
        cases fm with
        | null => exact ⟨_, rfl⟩
        | bool b => simp [benignFm, Yaml.isNull] at hb
        | int n => simp [benignFm, Yaml.isNull] at hb
        | str s => simp [benignFm, Yaml.isNull] at hb
        | list xs => simp [benignFm, Yaml.isNull] at hb
        | map kvs =>
          simp only [benignFm, Bool.and_eq_true] at hb
          obtain ⟨st3, hvf, -⟩ :=
            validateFrontmatter_benign fs.folderName kvs st2 hb.1 hb.2
          exact ⟨validateContent fs.skillMdContent st3, by simp [hvf, exceptBind_ok]⟩

/-- C2 counterexample: for the folder whose document's metadata block is
the scalar `5`, the run does not return the structured triple: iterating
the decoded integer in the unknown-key check raises `TypeError`, which
escapes `validate`. -/
theorem c2_counterexample :
    validate safeLoadModel fsIntBlock =
      .error (.typeError "'int' object is not iterable") := rfl

/-- C2 (corrected): a run completes normally and returns the structured
`(is_valid, errors, warnings)` triple whenever every mapping the parser
can hand to the field checks is benign — null, or a mapping whose `name`
and `description` values are strings when truthy.  For a block decoding to
a truthy non-mapping, or to a mapping holding a truthy non-string `name`
or `description`, a type fault escapes the run instead (see the
counterexample). -/
theorem c2_run_completes (decode : String → Except String Yaml) (fs : SkillFS)
    (h : ∀ fm st0 st', parseFrontmatter decode fs.skillMdContent st0 = (some fm, st') →
      benignFm fm = true) :
    ∃ r, validate decode fs = .ok r := by
  obtain ⟨st2, hv⟩ :=
    validateSkillMd_benign_ok decode fs (validateFolderStructure fs ⟨[], []⟩) h
  exact ⟨_, by unfold validate; rw [hv]⟩

/-- Witness for C2 at the fully conventional skill. -/
theorem c2_run_completes_witness :
    ∃ r, validate safeLoadModel fsGood = .ok r := by
  refine c2_run_completes safeLoadModel fsGood ?_
  intro fm st0 st' hp
  rw [show parseFrontmatter safeLoadModel fsGood.skillMdContent st0 =
      (some (Yaml.map [("name", Yaml.str "my-skill"),
        ("description", Yaml.str "Does X. Use when Y.")]), st0) from rfl] at hp
  simp only [Prod.mk.injEq, Option.some.injEq] at hp
  rw [← hp.1]
  rfl

/-- C7 counterexample: the successfully parsed mapping carrying `name: 5`
has no `description`, yet the run does not record the missing-description
error — the earlier name check raises `TypeError` on `len(5)` and the
exception aborts the field checks, so the whole run fails instead. -/
theorem c7_counterexample :
    dictGet [("name", Yaml.int 5)] "description" = Yaml.null ∧
    validateFrontmatter "my-skill" (Yaml.map [("name", Yaml.int 5)]) ⟨[], []⟩ =
      .error (.typeError "object of type 'int' has no len()") ∧
    validate safeLoadModel fsName5 =
      .error (.typeError "object of type 'int' has no len()") :=
  ⟨rfl, rfl, rfl⟩

/-- C7 (corrected): for every successfully parsed mapping whose `name`
value is a string or falsy — so the name check that runs first raises no
type fault — a `description` that is absent or falsy makes the run record
`Missing required 'description' field` regardless of the other fields,
and a `description` that is a non-empty string means that error is never
recorded. -/
theorem c7_missing_description (fn : String) (kvs : List (String × Yaml))
    (st : VState) (hname : strOrFalsy (dictGet kvs "name") = true) :
    ((dictGet kvs "description").truthy = false →
      ∃ st', validateFrontmatter fn (Yaml.map kvs) st = .ok st' ∧
        "Missing required 'description' field" ∈ st'.errors) ∧
    (∀ s, dictGet kvs "description" = Yaml.str s → s ≠ "" →
      ∃ st', validateFrontmatter fn (Yaml.map kvs) st = .ok st' ∧
        ("Missing required 'description' field" ∉ st.errors →
          "Missing required 'description' field" ∉ st'.errors)) := by
  constructor
  · intro ht
    have hdesc : strOrFalsy (dictGet kvs "description") = true := by
      simp [strOrFalsy, ht]
    obtain ⟨st', hv, hiff⟩ := validateFrontmatter_benign fn kvs st hname hdesc
    exact ⟨st', hv, hiff.mpr (Or.inr ht)⟩
  · intro s hd hne
    have hdesc : strOrFalsy (dictGet kvs "description") = true := by
      simp [strOrFalsy, hd, Yaml.isStr]
    obtain ⟨st', hv, hiff⟩ := validateFrontmatter_benign fn kvs st hname hdesc
    refine ⟨st', hv, fun hni hmem => ?_⟩
    rcases hiff.mp hmem with hmem2 | hfalsy
    · exact hni hmem2
    · rw [hd] at hfalsy
      simp [Yaml.truthy, hne] at hfalsy

/-- Witness for C7: the mapping `name: my-skill` with no description. -/
theorem c7_missing_description_witness :
    ∃ st', validateFrontmatter "my-skill"
        (Yaml.map [("name", Yaml.str "my-skill")]) ⟨[], []⟩ = .ok st' ∧
      "Missing required 'description' field" ∈ st'.errors :=
  (c7_missing_description "my-skill" [("name", Yaml.str "my-skill")] ⟨[], []⟩
    (by decide)).1 (by decide)
